import Mathlib

/-!
Verification development for the hype_bot repository.

Shallow embedding of the analytics engine (src/analytics.py), the response
formatter (src/formatter.py) and the mention-processing orchestration
(src/bot.py).  Python machine values are modelled as follows: `int` as `Int`,
`float` as `ℚ` (the reply/like ratios computed here are exact decimal
fractions; binary-float rounding is out of scope), `str` as `String`
(Python `len` and Lean `String.length` both count Unicode codepoints),
`datetime` as a wall-clock integer (seconds) plus an optional fixed UTC
offset, and fallible operations as `Except String`.
-/

set_option autoImplicit false

namespace HypeBot

/-! ### Python datetime model

A `datetime` is a wall-clock instant together with an optional `tzinfo`,
modelled as a fixed UTC offset in seconds (`none` = naive).  `replace` keeps
the wall clock and swaps the offset, exactly like Python.  Comparison of two
aware datetimes compares their UTC instants, comparison of two naive ones
compares wall clocks, and a mixed comparison raises `TypeError`. -/

structure PyDatetime where
  wall : Int
  tz : Option Int
  deriving DecidableEq, Repr

def tzErrMsg : String := "can\x27t compare offset-naive and offset-aware datetimes"

/-- Python `a >= b` on two datetimes. -/
def dtGe (a b : PyDatetime) : Except String Bool :=
  match a.tz, b.tz with
  | none, none => .ok (decide (b.wall ≤ a.wall))
  | some x, some y => .ok (decide (b.wall - y ≤ a.wall - x))
  | _, _ => .error tzErrMsg

/-- Outcome of `dateutil.parser.parse` on a stored timestamp string:
either it raises (`bad`) or yields a datetime. -/
inductive DateStr where
  | bad
  | good (d : PyDatetime)
  deriving DecidableEq, Repr

/-! ### Post model

Posts flow through the code in two shapes: an attribute-bearing object and a
plain dict.  Both carry the same optional fields; the shape decides which
accessors (`hasattr`/`getattr` vs `isinstance(post, dict)`/`.get`) see them.
The nested `record` can itself be an object or a dict. -/

inductive RecordVal where
  | robj (created_at : Option DateStr) (text : Option String)
  | rdict (created_at : Option DateStr) (text : Option String)
  deriving DecidableEq, Repr

structure Fields where
  like_count : Option Int := none
  repost_count : Option Int := none
  reply_count : Option Int := none
  uri : Option String := none
  indexed_at : Option DateStr := none
  record : Option RecordVal := none
  record_text : Option String := none
  deriving DecidableEq, Repr

inductive Post where
  | obj (f : Fields)
  | dict (f : Fields)
  deriving DecidableEq, Repr

/-- `post.like_count if hasattr(post, 'like_count') else 0`: attribute access,
which a plain dict never satisfies. -/
def attr_like : Post → Option Int
  | .obj f => f.like_count
  | .dict _ => none

def attr_repost : Post → Option Int
  | .obj f => f.repost_count
  | .dict _ => none

def attr_reply : Post → Option Int
  | .obj f => f.reply_count
  | .dict _ => none

/-! ### src/analytics.py -/

/-- `PostAnalytics.calculate_engagement`: likes + reposts + replies, missing
attributes counted as 0. -/
def calculate_engagement (post : Post) : Int :=
  (attr_like post).getD 0 + (attr_repost post).getD 0 + (attr_reply post).getD 0

/-- `PostAnalytics.calculate_ratio`: replies / max(likes, 1). -/
def calculate_ratio (post : Post) : ℚ :=
  (((attr_reply post).getD 0 : Int) : ℚ) / ((max ((attr_like post).getD 0) 1 : Int) : ℚ)

/-- `PostAnalytics.get_post_date`: try the `indexed_at` attribute, else the
nested `record.created_at` attribute; any parse failure is caught and yields
`None`.  A dict post has neither attribute. -/
def get_post_date (post : Post) : Option PyDatetime :=
  match post with
  | .dict _ => none
  | .obj f =>
    match f.indexed_at with
    | some .bad => none
    | some (.good d) => some d
    | none =>
      match f.record with
      | some (.robj (some .bad) _) => none
      | some (.robj (some (.good d)) _) => some d
      | _ => none

/-! Python `list.sort(key=lambda x: x[1], reverse=True)` is a stable
descending sort.  `insertDesc` places the inserted element before the first
element whose score does not exceed it; folding the input right-to-left makes
every element precede the equal-scored elements that followed it originally,
which is exactly stability under `reverse=True`. -/

section Sorting

variable {α β : Type} [LinearOrder β]

def insertDesc (x : α × β) : List (α × β) → List (α × β)
  | [] => [x]
  | y :: ys => if x.2 < y.2 then y :: insertDesc x ys else x :: y :: ys

def sortDesc : List (α × β) → List (α × β)
  | [] => []
  | x :: xs => insertDesc x (sortDesc xs)

/-- Specification-side selector: the first element of the input order among
those with maximum score ("descending stable sort, then take the first"). -/
def firstMax? : List (α × β) → Option (α × β)
  | [] => none
  | x :: xs =>
    match firstMax? xs with
    | none => some x
    | some b => if x.2 < b.2 then some b else some x

end Sorting

/-- State of the `find_top_recent_post` loop: the (mutated!) cutoff and the
accumulated `(post, engagement)` list, or the raised `TypeError`. -/
def recentLoop : List Post → PyDatetime → List (Post × Int) →
    Except String (List (Post × Int))
  | [], _, acc => .ok acc
  | p :: ps, cutoff, acc =>
    match get_post_date p with
    | none => recentLoop ps cutoff acc
    | some d =>
      let cutoff' := match d.tz with
        | some z => { cutoff with tz := some z }
        | none => cutoff
      let d' := match d.tz with
        | some _ => d
        | none => { d with tz := none }
      match dtGe d' cutoff' with
      | .error e => .error e
      | .ok b =>
        recentLoop ps cutoff'
          (if b then acc ++ [(p, calculate_engagement p)] else acc)

/-- Initial cutoff: naive `datetime.now() - timedelta(days=days)`,
with `now` the current naive wall clock in seconds. -/
def initCutoff (now : Int) (days : Nat) : PyDatetime :=
  { wall := now - days * 86400, tz := none }

/-- `PostAnalytics.find_top_recent_post`. -/
def find_top_recent_post (posts : List Post) (now : Int) (days : Nat) :
    Except String (Option (Post × Int)) :=
  match recentLoop posts (initCutoff now days) [] with
  | .error e => .error e
  | .ok scored =>
    .ok (if scored.isEmpty then none else (sortDesc scored).head?)

/-- `PostAnalytics.find_top_all_time_post`. -/
def find_top_all_time_post (posts : List Post) : Option (Post × Int) :=
  if posts.isEmpty then none
  else (sortDesc (posts.map (fun p => (p, calculate_engagement p)))).head?

/-- The qualifying `(post, ratio)` list built by `find_most_ratioed_post`:
posts with at least `minR` likes, in input order. -/
def ratioCandidates (minR : Int) (posts : List Post) : List (Post × ℚ) :=
  (posts.filter (fun p => minR ≤ (attr_like p).getD 0)).map
    (fun p => (p, calculate_ratio p))

/-- `PostAnalytics.find_most_ratioed_post`. -/
def find_most_ratioed_post (minR : Int) (posts : List Post) :
    Option (Post × ℚ) :=
  let q := ratioCandidates minR posts
  if q.isEmpty then none else (sortDesc q).head?

/-- The dict returned by `PostAnalytics.analyze_user_posts`. -/
structure AnalysisResult where
  top_recent : Option (Post × Int)
  top_all_time : Option (Post × Int)
  most_ratioed : Option (Post × ℚ)
  deriving DecidableEq, Repr

/-- `PostAnalytics.analyze_user_posts`: the dict literal evaluates
`find_top_recent_post` first, so its exception propagates. -/
def analyze_user_posts (minR : Int) (posts : List Post) (now : Int)
    (recent_days : Nat) : Except String AnalysisResult :=
  match find_top_recent_post posts now recent_days with
  | .error e => .error e
  | .ok tr =>
    .ok { top_recent := tr
          top_all_time := find_top_all_time_post posts
          most_ratioed := find_most_ratioed_post minR posts }

/-! ### src/formatter.py -/

def MAX_POST_LENGTH : Nat := 300

def MAX_TEXT_PREVIEW : Nat := 80

/-- Python slice `s[:k]`: a nonnegative bound takes that many characters, a
negative bound drops that many from the end (clamped at the empty string). -/
def pyTake (s : String) (k : Int) : String :=
  if k < 0 then String.mk (s.data.take (s.data.length - k.natAbs))
  else String.mk (s.data.take k.toNat)

/-- `ResponseFormatter.truncate_text`: identity when the text fits, otherwise
`text[:max_length - 3] + "..."` (note the negative slice when
`max_length < 3`). -/
def truncate_text (text : String) (max_length : Nat) : String :=
  if text.length ≤ max_length then text
  else pyTake text ((max_length : Int) - 3) ++ "..."

/-- The whitespace class of Python `str.split()` (ASCII part). -/
def isPyWs (c : Char) : Bool :=
  c == ' ' || c == '\t' || c == '\n' || c == '\r' ||
    c == Char.ofNat 11 || c == Char.ofNat 12

/-- `text.split()`: split on whitespace runs, discarding empty pieces. -/
def splitWsGo : List Char → List Char → List (List Char)
  | [], cur => if cur.isEmpty then [] else [cur.reverse]
  | c :: cs, cur =>
    if isPyWs c then
      if cur.isEmpty then splitWsGo cs [] else cur.reverse :: splitWsGo cs []
    else splitWsGo cs (c :: cur)

/-- `sep.join(pieces)`. -/
def joinWith (sep : String) : List String → String
  | [] => ""
  | [x] => x
  | x :: y :: ys => x ++ sep ++ joinWith sep (y :: ys)

/-- `' '.join(text.split())`. -/
def collapseWs (s : String) : String :=
  joinWith " " ((splitWsGo s.data []).map String.mk)

def unavailableText : String := "[Post content unavailable]"

/-- The quoted, truncated preview body built by `get_post_preview`. -/
def quotedPreview (t : String) : String :=
  "\"" ++ truncate_text (collapseWs t) MAX_TEXT_PREVIEW ++ "\""

/-- `ResponseFormatter.get_post_preview`: a dict post is read from the flat
`record_text` key; an object post from its `record` attribute, whose `text`
is fetched with `.get` when the record is a dict and `getattr` otherwise.
A falsy (absent or empty) text yields the sentinel. -/
def get_post_preview (post : Post) : String :=
  match post with
  | .dict f =>
    match f.record_text with
    | some t => if t == "" then unavailableText else quotedPreview t
    | none => unavailableText
  | .obj f =>
    match f.record with
    | some (.robj _ (some t)) => if t == "" then unavailableText else quotedPreview t
    | some (.rdict _ (some t)) => if t == "" then unavailableText else quotedPreview t
    | _ => unavailableText

/-- `ResponseFormatter.get_post_stats`: branches on the post shape and in both
cases defaults each missing counter to 0. -/
def get_post_stats (post : Post) : Int × Int × Int :=
  match post with
  | .dict f => (f.like_count.getD 0, f.repost_count.getD 0, f.reply_count.getD 0)
  | .obj f => (f.like_count.getD 0, f.repost_count.getD 0, f.reply_count.getD 0)

/-- The uri accessed by `format_thread_post`: `post.get('uri')` for a dict,
`getattr(post, 'uri', None)` for an object. -/
def uriOf : Post → Option String
  | .dict f => f.uri
  | .obj f => f.uri

/-- `ResponseFormatter.format_engagement_stats`. -/
def format_engagement_stats (likes reposts replies : Int) : String :=
  "❤️ " ++ toString likes ++ " | 🔄 " ++ toString reposts ++ " | 💬 " ++ toString replies

/-- Does the character list start with the given pattern? -/
def charsStartsWith : List Char → List Char → Bool
  | _, [] => true
  | [], _ :: _ => false
  | c :: cs, p :: ps2 => c == p && charsStartsWith cs ps2

/-- Python `s.replace(old, new)` for a non-empty `old`: left-to-right,
non-overlapping.  The fuel argument (initially the string length) keeps the
recursion structural. -/
def replaceAllGo (pat rep : List Char) : Nat → List Char → List Char
  | _, [] => []
  | 0, s => s
  | Nat.succ fuel, c :: cs =>
    if charsStartsWith (c :: cs) pat && !pat.isEmpty then
      rep ++ replaceAllGo pat rep fuel (List.drop (pat.length - 1) cs)
    else
      c :: replaceAllGo pat rep fuel cs

def pyReplaceAll (s pat rep : String) : String :=
  String.mk (replaceAllGo pat.data rep.data s.data.length s.data)

/-- Python `s.split(sep)` for a non-empty separator. -/
def splitSepGo (sep : List Char) : Nat → List Char → List Char → List (List Char)
  | _, [], cur => [cur.reverse]
  | 0, s, cur => [cur.reverse ++ s]
  | Nat.succ fuel, c :: cs, cur =>
    if charsStartsWith (c :: cs) sep && !sep.isEmpty then
      cur.reverse :: splitSepGo sep fuel (List.drop (sep.length - 1) cs) []
    else
      splitSepGo sep fuel cs (c :: cur)

def pySplitSep (s sep : String) : List String :=
  (splitSepGo sep.data s.data.length s.data []).map String.mk

/-- `ResponseFormatter.uri_to_url`: strip every `at://`, split on `/`; with at
least 3 segments build the profile URL (an empty handle is falsy and loses to
the DID), otherwise return the identifier unchanged. -/
def uri_to_url (uri : String) (handle : Option String) : String :=
  let parts := pySplitSep (pyReplaceAll uri "at://" "") "/"
  if 3 ≤ parts.length then
    let did := parts.headD ""
    let rkey := parts.getD 2 ""
    let actor := match handle with
      | some h => if h == "" then did else h
      | none => did
    "https://bsky.app/profile/" ++ actor ++ "/post/" ++ rkey
  else uri

/-- `'\n\n'.join`. -/
def joinSep : List String → String
  | [] => ""
  | [x] => x
  | x :: y :: ys => x ++ "\n\n" ++ joinSep (y :: ys)

/-- The TypeError message of `'\n\n'.join` over a list whose item `i` is
`None` (the url slot when the post has no uri). -/
def joinNoneMsg (i : Nat) : String :=
  "sequence item " ++ toString i ++ ": expected str instance, NoneType found"

/-- The parts list assembled by `format_thread_post`, as a function of the
preview slot (`parts[-2]`, the one the shrink pass overwrites). -/
def blockParts (emoji title stats : String) (score_text : Option String)
    (url : String) (pv : String) : List String :=
  [emoji ++ " " ++ title, stats] ++ score_text.toList ++ [pv, url]

/-- The stats line of a block, from the post counters. -/
def stats_of (post : Post) : String :=
  match get_post_stats post with
  | (likes, reposts, replies) => format_engagement_stats likes reposts replies

/-- `ResponseFormatter.format_thread_post`: assemble the block; when it
exceeds 300 characters re-truncate the preview to
`max(20, 300 - length-without-preview)` and reassemble.  A post without a
uri makes `'\n\n'.join` raise (its url slot is `None`). -/
def format_thread_post (emoji title : String) (post : Post)
    (score_text : Option String) (handle : Option String) :
    Except String String :=
  let stats := stats_of post
  let preview := get_post_preview post
  match uriOf post with
  | none => .error (joinNoneMsg (if score_text.isSome then 4 else 3))
  | some uri =>
    let url := uri_to_url uri handle
    let text := joinSep (blockParts emoji title stats score_text url preview)
    if text.length ≤ MAX_POST_LENGTH then .ok text
    else
      let available : Int := (MAX_POST_LENGTH : Int) - ((text.length - preview.length : Nat) : Int)
      let short_preview := truncate_text preview (max 20 available).toNat
      .ok (joinSep (blockParts emoji title stats score_text url short_preview))

/-- `ResponseFormatter.format_error_response` (an empty handle is falsy). -/
def format_error_response (error_message : String) (handle : Option String) : String :=
  match handle with
  | some h =>
    if h == "" then "Sorry, I couldn\x27t complete the analysis: " ++ error_message
    else "Sorry @" ++ h ++ ", I couldn\x27t analyze your posts: " ++ error_message
  | none => "Sorry, I couldn\x27t complete the analysis: " ++ error_message

/-- `ResponseFormatter.format_no_posts_response`. -/
def format_no_posts_response (handle : Option String) : String :=
  match handle with
  | some h =>
    if h == "" then "No posts found to analyze. Start posting to build your engagement history! 🚀"
    else "@" ++ h ++ " doesn\x27t have any posts yet! Start posting to build your engagement history. 🚀"
  | none => "No posts found to analyze. Start posting to build your engagement history! 🚀"

/-- Round half to even, applied to the scaled ratio for `%.1f`. -/
def roundHalfEven (q : ℚ) : Int :=
  let f := ⌊q⌋
  let r := q - (f : ℚ)
  if r < 1/2 then f
  else if 1/2 < r then f + 1
  else if f % 2 = 0 then f else f + 1

/-- Python `f"{q:.1f}"` on the (exact-rational model of the) ratio. -/
def fmt1 (q : ℚ) : String :=
  let n := roundHalfEven (10 * q)
  let s := if n < 0 then "-" else ""
  s ++ toString (n.natAbs / 10) ++ "." ++ toString (n.natAbs % 10)

def ratioFallback : String := "No ratio here! Keep posting those bangers 🔥"

def noRecentSentinel (recent_days : Nat) : String :=
  "🔥 No posts found in the last " ++ toString recent_days ++ " days"

def noAllTimeSentinel : String := "👑 No all-time posts found"

def recentTitle (recent_days : Nat) (engagement : Int) : String :=
  "Recent (" ++ toString recent_days ++ "d) - " ++ toString engagement ++ " total engagement"

def allTimeTitle (engagement : Int) : String :=
  "All-Time - " ++ toString engagement ++ " total engagement"

/-- `ResponseFormatter.create_thread_responses`: three blocks in order; the
third shows the 🌶️ block only when the ratio is at least 3.0. -/
def create_thread_responses (top_recent : Option (Post × Int))
    (top_all_time : Option (Post × Int)) (most_ratioed : Option (Post × ℚ))
    (handle : Option String) (recent_days : Nat) :
    Except String (List String) :=
  match (match top_recent with
         | some (p, engagement) =>
           format_thread_post "🔥" (recentTitle recent_days engagement) p none handle
         | none => .ok (noRecentSentinel recent_days)) with
  | .error e => .error e
  | .ok b1 =>
    match (match top_all_time with
           | some (p, engagement) =>
             format_thread_post "👑" (allTimeTitle engagement) p none handle
           | none => .ok noAllTimeSentinel) with
    | .error e => .error e
    | .ok b2 =>
      match (match most_ratioed with
             | some (p, ratio) =>
               if (3 : ℚ) ≤ ratio then
                 format_thread_post "🌶️" "Most Ratioed" p
                   (some ("Ratio: " ++ fmt1 ratio)) handle
               else .ok ratioFallback
             | none => .ok ratioFallback) with
      | .error e => .error e
      | .ok b3 => .ok [b1, b2, b3]

/-! ### src/bot.py

`MentionTracker` is an in-memory set of processed uris, modelled as a list
with membership.  The network client is a collaborator: its behaviour enters
the model as data — the outcome of `fetch_all_posts` and the outcome of the
`k`-th `send_reply` call of the current `process_mention` run (an exception,
or a `(uri, cid)` pair whose uri may be falsy/`None`).  The observable result
of `process_mention` is `(return value, tracker afterwards, texts passed to
send_reply in order)`; the error-notice attempt in the `except` handler is
recorded whether or not it raises, since its own failure is swallowed. -/

structure Mention where
  uri : String
  cid : String
  authorDid : String
  authorHandle : Option String
  deriving DecidableEq, Repr

structure World where
  fetch : Except String (List Post)
  reply : Nat → Except String (Option String × Option String)

/-- `MentionTracker.mark_processed`. -/
def mark (tracker : List String) (uri : String) : List String :=
  uri :: tracker

/-- The `except` handler of `process_mention`: format the error notice, make
one best-effort `send_reply` attempt (whose outcome is ignored), return
`False` without touching the tracker. -/
def exceptHandler (tracker : List String) (sent : List String) (msg : String)
    (handle : Option String) : Bool × List String × List String :=
  (false, tracker, sent ++ [format_error_response msg handle])

/-- The chained sends of `thread_posts[1:]`: returns the texts attempted and
the message of the first exception, if any (a falsy reply uri only logs and
continues). -/
def sendRest (w : World) : Nat → List String → List String × Option String
  | _, [] => ([], none)
  | k, t :: ts =>
    match w.reply k with
    | .error e => ([t], some e)
    | .ok _ =>
      match sendRest w (k + 1) ts with
      | (s, r) => (t :: s, r)

/-- `BlueskyBot.process_mention` over a tracker state and a client world. -/
def process_mention (recent_days : Nat) (minR : Int) (now : Int) (w : World)
    (tracker : List String) (m : Mention) : Bool × List String × List String :=
  if m.uri ∈ tracker then (true, tracker, [])
  else
    match w.fetch with
    | .error e => exceptHandler tracker [] e m.authorHandle
    | .ok posts =>
      if posts.isEmpty then
        let response := format_no_posts_response m.authorHandle
        match w.reply 0 with
        | .error e => exceptHandler tracker [response] e m.authorHandle
        | .ok _ => (true, mark tracker m.uri, [response])
      else
        match analyze_user_posts minR posts now recent_days with
        | .error e => exceptHandler tracker [] e m.authorHandle
        | .ok analysis =>
          match create_thread_responses analysis.top_recent analysis.top_all_time
              analysis.most_ratioed m.authorHandle recent_days with
          | .error e => exceptHandler tracker [] e m.authorHandle
          | .ok thread =>
            match thread with
            | [] => exceptHandler tracker [] "list index out of range" m.authorHandle
            | t0 :: rest =>
              match w.reply 0 with
              | .error e => exceptHandler tracker [t0] e m.authorHandle
              | .ok (first_post_uri, _) =>
                match first_post_uri with
                | none => (false, tracker, [t0])
                | some _ =>
                  match sendRest w 1 rest with
                  | (sentR, some e) =>
                    exceptHandler tracker (t0 :: sentR) e m.authorHandle
                  | (sentR, none) => (true, mark tracker m.uri, t0 :: sentR)

/-! ### Specification-side predicates and concrete sample data -/

/-- The post has a parseable, timezone-aware timestamp. -/
def awareDated (p : Post) : Prop :=
  ∃ d, get_post_date p = some d ∧ (d.tz).isSome

/-- The post has a parseable, naive timestamp. -/
def naiveDated (p : Post) : Prop :=
  ∃ d, get_post_date p = some d ∧ d.tz = none

/-- Some naive-dated post is preceded in the list by some aware-dated post
(the shape on which the mutated cutoff makes the recency comparison raise). -/
def MixedNA (posts : List Post) : Prop :=
  ∃ l1 p l2, posts = l1 ++ p :: l2 ∧ naiveDated p ∧ ∃ q ∈ l1, awareDated q

/-- The length contribution of the optional score slot, separator included. -/
def scoreLen : Option String → Nat
  | some s => s.length + 2
  | none => 0

/-- Length of every non-preview segment of a rendered block, separators
included: the budget `300 -` this must leave at least 20 for the preview for
the shrink pass to reach the cap. -/
def block_overhead (emoji title : String) (post : Post)
    (score_text : Option String) (handle : Option String) : Nat :=
  (emoji ++ " " ++ title).length + 2 + (stats_of post).length + 2 +
    scoreLen score_text + 2 + (uri_to_url ((uriOf post).getD "") handle).length

/-- Does some rendered block exceed the 300-character cap? -/
def anyOver300 (x : Except String (List String)) : Bool :=
  match x with
  | .ok ts => ts.any (fun s => decide (300 < s.length))
  | .error _ => false

def samplePostAware : Post :=
  .obj { indexed_at := some (.good { wall := 100, tz := some 0 }) }

def samplePostNaive : Post :=
  .obj { indexed_at := some (.good { wall := 50, tz := none }) }

def sampleFields170 : Fields :=
  { like_count := some 100, repost_count := some 50, reply_count := some 20 }

def samplePostUri : Post :=
  .obj { uri := some "at://d/app.bsky.feed.post/r", like_count := some 1 }

def sampleTiedA : Post :=
  .obj { uri := some "at://d/app.bsky.feed.post/a", like_count := some 2,
         repost_count := some 2, reply_count := some 1,
         indexed_at := some (.good { wall := 0, tz := none }) }

def sampleTiedB : Post :=
  .obj { uri := some "at://d/app.bsky.feed.post/b", like_count := some 2,
         repost_count := some 2, reply_count := some 1,
         indexed_at := some (.good { wall := 0, tz := none }) }

def sampleBigHandle : String := String.mk (List.replicate 300 'a')

def sampleWorldErr : World :=
  { fetch := .error "API error", reply := fun _ => .ok (some "u", some "c") }

def sampleWorldReplyErr : World :=
  { fetch := .ok [], reply := fun _ => .error "network down" }

def sampleMention : Mention :=
  { uri := "at://m/app.bsky.feed.post/1", cid := "cid1",
    authorDid := "did:plc:x", authorHandle := some "alice.bsky.social" }

/-! ### Helper lemmas: truncation -/

theorem truncate_text_of_le (text : String) (m : Nat) (h : text.length ≤ m) :
    truncate_text text m = text := by
  simp [truncate_text, h]

theorem truncate_text_of_lt (text : String) (m : Nat) (h3 : 3 ≤ m)
    (hl : m < text.length) :
    truncate_text text m = String.mk (text.data.take (m - 3)) ++ "..." ∧
    (truncate_text text m).length = m := by
  have hnle : ¬ text.length ≤ m := Nat.not_le_of_lt hl
  have hk : ¬ ((m : Int) - 3 < 0) := by omega
  have htn : ((m : Int) - 3).toNat = m - 3 := by omega
  have heq : truncate_text text m = String.mk (text.data.take (m - 3)) ++ "..." := by
    simp [truncate_text, hnle, pyTake, hk, htn]
  refine ⟨heq, ?_⟩
  rw [heq]
  have hdl : text.data.length = text.length := rfl
  have h1 : (String.mk (text.data.take (m - 3))).length = m - 3 := by
    show (text.data.take (m - 3)).length = m - 3
    rw [List.length_take]
    omega
  rw [String.length_append, h1]
  show m - 3 + ("..." : String).length = m
  have : ("..." : String).length = 3 := rfl
  omega

/-! ### Claim C8 -/

/-- C8: truncate_text is the identity when the text fits; otherwise — as the
counterexample shows, only for max_len at least 3 — it returns the first
max_len−3 characters followed by the 3-character ellipsis, with total length
exactly max_len. -/
theorem claim_c8 (text : String) (m : Nat) :
    (text.length ≤ m → truncate_text text m = text) ∧
    (3 ≤ m → m < text.length →
      truncate_text text m = String.mk (text.data.take (m - 3)) ++ "..." ∧
      (truncate_text text m).length = m) :=
  ⟨truncate_text_of_le text m, fun h3 hl => truncate_text_of_lt text m h3 hl⟩

theorem claim_c8_witness :
    truncate_text "this is a long string" 10 =
      String.mk ("this is a long string".data.take 7) ++ "..." ∧
    (truncate_text "this is a long string" 10).length = 10 :=
  (claim_c8 "this is a long string" 10).2 (by decide) (by decide)

theorem claim_c8_counterexample :
    (truncate_text "abcdef" 2).length ≠ 2 := by decide

/-! ### Claim C9 -/

/-- C9: for max_length below 3 and text longer than max_length, the negative
slice keeps all but the last 3−max_length characters and appends the
ellipsis, so the result is strictly longer than max_length. -/
theorem claim_c9 (text : String) (m : Nat) (h3 : m < 3) (hl : m < text.length) :
    truncate_text text m =
      String.mk (text.data.take (text.length - (3 - m))) ++ "..." ∧
    m < (truncate_text text m).length := by
  have hnle : ¬ text.length ≤ m := Nat.not_le_of_lt hl
  have hk : (m : Int) - 3 < 0 := by omega
  have hna : ((m : Int) - 3).natAbs = 3 - m := by omega
  have hdl : text.data.length = text.length := rfl
  have heq : truncate_text text m =
      String.mk (text.data.take (text.length - (3 - m))) ++ "..." := by
    simp [truncate_text, hnle, pyTake, hk, hna, hdl]
  refine ⟨heq, ?_⟩
  rw [heq, String.length_append]
  have h1 : (String.mk (text.data.take (text.length - (3 - m)))).length =
      text.length - (3 - m) := by
    show (text.data.take (text.length - (3 - m))).length = text.length - (3 - m)
    rw [List.length_take]
    omega
  have h2 : ("..." : String).length = 3 := rfl
  omega

theorem claim_c9_witness :
    truncate_text "abcdef" 2 = String.mk ("abcdef".data.take 5) ++ "..." ∧
    2 < (truncate_text "abcdef" 2).length :=
  claim_c9 "abcdef" 2 (by decide) (by decide)

/-! ### Claim C10 -/

/-- C10: for a dict-shaped post the preview text is read only from the flat
record_text key — the nested record field is ignored entirely and its absence
yields the unavailable sentinel — while an object post is read from the
nested record text attribute. -/
theorem claim_c10 (f : Fields) :
    (∀ g : Option RecordVal,
      get_post_preview (.dict { f with record := g }) =
        get_post_preview (.dict f)) ∧
    (f.record_text = none → get_post_preview (.dict f) = unavailableText) ∧
    (∀ c t, f.record = some (.robj c (some t)) → t ≠ "" →
      get_post_preview (.obj f) = quotedPreview t) := by
  refine ⟨fun g => rfl, fun h => ?_, fun c t hr ht => ?_⟩
  · simp [get_post_preview, h]
  · have hbeq : (t == "") = false := by
      exact beq_eq_false_iff_ne.mpr ht
    simp [get_post_preview, hr, hbeq]

theorem claim_c10_witness :
    get_post_preview
      (.dict { record := some (.rdict none (some "hello")), record_text := none }) =
      unavailableText :=
  (claim_c10 { record := some (.rdict none (some "hello")), record_text := none }).2.1 rfl

/-! ### Claim C4 -/

/-- C4: the code's actual shape behavior.  The formatter accessors are
shape-transparent — stats and uri agree on both shapes with the same fields —
but the analytics accessors read attributes only, so a mapping post (the
shape the client's fetch path actually builds) always scores engagement 0 and
ratio 0, violating the transparent-support requirement on the analytics
side. -/
theorem claim_c4 (f : Fields) :
    get_post_stats (.obj f) = get_post_stats (.dict f) ∧
    uriOf (.obj f) = uriOf (.dict f) ∧
    calculate_engagement (.dict f) = 0 ∧
    calculate_ratio (.dict f) = 0 := by
  refine ⟨rfl, rfl, rfl, ?_⟩
  simp [calculate_ratio, attr_reply, attr_like]

theorem claim_c4_counterexample :
    calculate_engagement (.obj sampleFields170) ≠
    calculate_engagement (.dict sampleFields170) := by decide

/-! ### Helper lemmas: the stable descending sort picks the first maximum -/

section SortLemmas

variable {α β : Type} [LinearOrder β]

theorem sortDesc_head? : ∀ l : List (α × β), (sortDesc l).head? = firstMax? l := by
  intro l
  induction l with
  | nil => rfl
  | cons x xs ih =>
    show (insertDesc x (sortDesc xs)).head? = firstMax? (x :: xs)
    cases h : sortDesc (α := α) (β := β) xs with
    | nil =>
      rw [h] at ih
      show (insertDesc x []).head? = firstMax? (x :: xs)
      simp [firstMax?, ← ih, insertDesc]
    | cons y ys =>
      rw [h] at ih
      show (insertDesc x (y :: ys)).head? = firstMax? (x :: xs)
      rw [firstMax?, ← ih]
      by_cases hxy : x.2 < y.2
      · simp [insertDesc, hxy]
      · simp [insertDesc, hxy]

theorem firstMax?_eq_none : ∀ l : List (α × β), firstMax? l = none ↔ l = [] := by
  intro l
  cases l with
  | nil => simp [firstMax?]
  | cons x xs =>
    simp only [firstMax?]
    constructor
    · intro h
      cases h2 : firstMax? (α := α) (β := β) xs with
      | none => rw [h2] at h; exact absurd h (by simp)
      | some b => rw [h2] at h; by_cases hb : x.2 < b.2 <;> simp [hb] at h
    · intro h
      exact absurd h (by simp)

theorem firstMax?_spec :
    ∀ (l : List (α × β)) (x : α × β), firstMax? l = some x →
      ∃ l1 l2, l = l1 ++ x :: l2 ∧ (∀ y ∈ l1, y.2 < x.2) ∧ ∀ y ∈ l, y.2 ≤ x.2 := by
  intro l
  induction l with
  | nil => intro x h; exact absurd h (by simp [firstMax?])
  | cons a as ih =>
    intro x h
    rw [firstMax?] at h
    cases hm : firstMax? (α := α) (β := β) as with
    | none =>
      rw [hm] at h
      dsimp only at h
      have hax : a = x := by injection h
      subst hax
      have hnil : as = [] := (firstMax?_eq_none as).mp hm
      subst hnil
      exact ⟨[], [], rfl, by simp, by simp⟩
    | some b =>
      rw [hm] at h
      dsimp only at h
      obtain ⟨l1, l2, heq, hlt, hle⟩ := ih b hm
      by_cases hab : a.2 < b.2
      · rw [if_pos hab] at h
        have hbx : b = x := by injection h
        subst hbx
        refine ⟨a :: l1, l2, by rw [heq]; rfl, ?_, ?_⟩
        · intro y hy
          rcases List.mem_cons.mp hy with hy | hy
          · exact hy ▸ hab
          · exact hlt y hy
        · intro y hy
          rcases List.mem_cons.mp hy with hy | hy
          · exact hy ▸ le_of_lt hab
          · exact hle y hy
      · rw [if_neg hab] at h
        have hax : a = x := by injection h
        subst hax
        refine ⟨[], as, rfl, by simp, ?_⟩
        intro y hy
        rcases List.mem_cons.mp hy with hy | hy
        · exact hy ▸ le_refl _
        · exact le_trans (hle y hy) (not_lt.mp hab)

end SortLemmas

/-! ### Claim C6 -/

/-- C6: every selector takes the head of a stable descending sort of its
candidate list, which equals the first element of the candidate order
attaining the maximum score; the first-maximum selector returns an element
preceded only by strictly smaller scores and bounding all scores from above,
so ties go to the earliest candidate. -/
theorem claim_c6 (minR : Int) (posts : List Post) (now : Int) (days : Nat)
    (scored : List (Post × Int)) :
    find_top_all_time_post posts =
      firstMax? (posts.map (fun p => (p, calculate_engagement p))) ∧
    find_most_ratioed_post minR posts = firstMax? (ratioCandidates minR posts) ∧
    (recentLoop posts (initCutoff now days) [] = .ok scored →
      find_top_recent_post posts now days = .ok (firstMax? scored)) ∧
    (∀ (l : List (Post × Int)) (x : Post × Int), firstMax? l = some x →
      ∃ l1 l2, l = l1 ++ x :: l2 ∧ (∀ y ∈ l1, y.2 < x.2) ∧ ∀ y ∈ l, y.2 ≤ x.2) := by
  refine ⟨?_, ?_, ?_, fun l x h => firstMax?_spec l x h⟩
  · rw [find_top_all_time_post]
    cases posts with
    | nil => simp [firstMax?]
    | cons p ps =>
      simp only [List.isEmpty_cons, Bool.false_eq_true, if_false, List.map_cons]
      exact sortDesc_head? _
  · rw [find_most_ratioed_post]
    cases hq : ratioCandidates minR posts with
    | nil => simp [firstMax?]
    | cons c cs =>
      simp only [List.isEmpty_cons, Bool.false_eq_true, if_false]
      exact (hq ▸ sortDesc_head? (ratioCandidates minR posts))
  · intro h
    rw [find_top_recent_post, h]
    cases scored with
    | nil => simp [firstMax?]
    | cons c cs =>
      simp only [List.isEmpty_cons, Bool.false_eq_true, if_false]
      exact congrArg Except.ok (sortDesc_head? _)

theorem claim_c6_witness :
    find_top_recent_post [sampleTiedA, sampleTiedB] 0 30 =
      .ok (firstMax? [(sampleTiedA, 5), (sampleTiedB, 5)]) :=
  (claim_c6 5 [sampleTiedA, sampleTiedB] 0 30 [(sampleTiedA, 5), (sampleTiedB, 5)]).2.2.1
    (by rfl)

/-! ### Helper lemmas: when the recency filter raises -/

theorem naiveDated_iff {p : Post} {d : PyDatetime} (hd : get_post_date p = some d) :
    naiveDated p ↔ d.tz = none := by
  constructor
  · rintro ⟨d', h1, h2⟩
    rw [hd] at h1
    injection h1 with h
    exact h ▸ h2
  · intro h
    exact ⟨d, hd, h⟩

theorem awareDated_iff {p : Post} {d : PyDatetime} (hd : get_post_date p = some d) :
    awareDated p ↔ (d.tz).isSome := by
  constructor
  · rintro ⟨d', h1, h2⟩
    rw [hd] at h1
    injection h1 with h
    exact h ▸ h2
  · intro h
    exact ⟨d, hd, h⟩

theorem not_naiveDated {p : Post} (hd : get_post_date p = none) : ¬ naiveDated p := by
  rintro ⟨d', h1, _⟩
  rw [hd] at h1
  exact absurd h1 (by simp)

theorem not_awareDated {p : Post} (hd : get_post_date p = none) : ¬ awareDated p := by
  rintro ⟨d', h1, _⟩
  rw [hd] at h1
  exact absurd h1 (by simp)

theorem mixedNA_nil : ¬ MixedNA [] := by
  rintro ⟨l1, p, l2, heq, -, -⟩
  exact absurd heq.symm (List.append_ne_nil_of_right_ne_nil l1 (by simp))

theorem mixedNA_cons_of_not_aware {p : Post} {ps : List Post} (h : ¬ awareDated p) :
    MixedNA (p :: ps) ↔ MixedNA ps := by
  constructor
  · rintro ⟨l1, q, l2, heq, hn, a, hal, haw⟩
    cases l1 with
    | nil => exact absurd hal (by simp)
    | cons r l1' =>
      injection heq with h1 h2
      subst h1
      rcases List.mem_cons.mp hal with hr | hr
      · exact absurd (hr ▸ haw) h
      · exact ⟨l1', q, l2, h2, hn, a, hr, haw⟩
  · rintro ⟨l1, q, l2, heq, hn, a, hal, haw⟩
    exact ⟨p :: l1, q, l2, by rw [heq]; rfl, hn, a, List.mem_cons_of_mem p hal, haw⟩

theorem mixedNA_cons_of_aware {p : Post} {ps : List Post} (h : awareDated p)
    (hnn : ¬ naiveDated p) :
    MixedNA (p :: ps) ↔ ∃ q ∈ ps, naiveDated q := by
  constructor
  · rintro ⟨l1, q, l2, heq, hn, -⟩
    cases l1 with
    | nil =>
      injection heq with h1 h2
      exact absurd (h1 ▸ hn) hnn
    | cons r l1' =>
      injection heq with h1 h2
      exact ⟨q, h2 ▸ List.mem_append_right l1' (List.mem_cons_self q l2), hn⟩
  · rintro ⟨q, hq, hn⟩
    obtain ⟨s, t, hst⟩ := List.append_of_mem hq
    exact ⟨p :: s, q, t, by rw [hst]; rfl, hn,
      p, List.mem_cons_self p s, h⟩

theorem recentLoop_error_iff_aware :
    ∀ (posts : List Post) (cutoff : PyDatetime) (acc : List (Post × Int)) (z : Int),
      cutoff.tz = some z →
      ((∃ e, recentLoop posts cutoff acc = .error e) ↔ ∃ p ∈ posts, naiveDated p) := by
  intro posts
  induction posts with
  | nil =>
    intro cutoff acc z hz
    simp [recentLoop]
  | cons p ps ih =>
    intro cutoff acc z hz
    cases hd : get_post_date p with
    | none =>
      simp only [recentLoop, hd]
      rw [ih cutoff acc z hz]
      simp only [List.mem_cons]
      constructor
      · rintro ⟨q, hq, hn⟩
        exact ⟨q, Or.inr hq, hn⟩
      · rintro ⟨q, hq, hn⟩
        rcases hq with hq | hq
        · exact absurd (hq ▸ hn) (not_naiveDated hd)
        · exact ⟨q, hq, hn⟩
    | some d =>
      cases htz : d.tz with
      | some z' =>
        simp only [recentLoop, hd, htz, dtGe]
        rw [ih _ _ z' rfl]
        simp only [List.mem_cons]
        constructor
        · rintro ⟨q, hq, hn⟩
          exact ⟨q, Or.inr hq, hn⟩
        · rintro ⟨q, hq, hn⟩
          rcases hq with hq | hq
          · rw [hq, naiveDated_iff hd, htz] at hn
            exact absurd hn (by simp)
          · exact ⟨q, hq, hn⟩
      | none =>
        simp only [recentLoop, hd, htz, hz, dtGe]
        constructor
        · intro _
          exact ⟨p, List.mem_cons_self p ps, (naiveDated_iff hd).mpr htz⟩
        · intro _
          exact ⟨tzErrMsg, rfl⟩

theorem recentLoop_error_iff_naive :
    ∀ (posts : List Post) (cutoff : PyDatetime) (acc : List (Post × Int)),
      cutoff.tz = none →
      ((∃ e, recentLoop posts cutoff acc = .error e) ↔ MixedNA posts) := by
  intro posts
  induction posts with
  | nil =>
    intro cutoff acc hz
    simp only [recentLoop]
    constructor
    · rintro ⟨e, he⟩
      exact absurd he (by simp)
    · intro h
      exact absurd h mixedNA_nil
  | cons p ps ih =>
    intro cutoff acc hz
    cases hd : get_post_date p with
    | none =>
      simp only [recentLoop, hd]
      rw [ih cutoff acc hz, mixedNA_cons_of_not_aware (not_awareDated hd)]
    | some d =>
      cases htz : d.tz with
      | some z' =>
        simp only [recentLoop, hd, htz, dtGe]
        rw [recentLoop_error_iff_aware ps _ _ z' rfl,
          mixedNA_cons_of_aware ((awareDated_iff hd).mpr (by rw [htz]; rfl))
            (fun hn => by rw [naiveDated_iff hd, htz] at hn; exact absurd hn (by simp))]
      | none =>
        simp only [recentLoop, hd, htz, hz, dtGe]
        rw [ih cutoff _ hz,
          mixedNA_cons_of_not_aware
            (fun ha => by rw [awareDated_iff hd, htz] at ha; exact absurd ha (by simp))]

theorem recentLoop_error_msg :
    ∀ (posts : List Post) (cutoff : PyDatetime) (acc : List (Post × Int)) (e : String),
      recentLoop posts cutoff acc = .error e → e = tzErrMsg := by
  intro posts
  induction posts with
  | nil =>
    intro cutoff acc e he
    exact absurd he (by simp [recentLoop])
  | cons p ps ih =>
    intro cutoff acc e he
    cases hd : get_post_date p with
    | none =>
      rw [recentLoop, hd] at he
      exact ih cutoff acc e he
    | some d =>
      cases htz : d.tz with
      | some z' =>
        rw [recentLoop, hd] at he
        simp only [htz, dtGe] at he
        exact ih _ _ e he
      | none =>
        rw [recentLoop, hd] at he
        simp only [htz, dtGe] at he
        cases hcz : cutoff.tz with
        | none =>
          simp only [hcz] at he
          exact ih _ _ e he
        | some z =>
          simp only [hcz] at he
          injection he with h
          exact h.symm

theorem find_top_recent_error_iff (posts : List Post) (now : Int) (days : Nat) :
    (∃ e, find_top_recent_post posts now days = .error e) ↔ MixedNA posts := by
  have hiff := recentLoop_error_iff_naive posts (initCutoff now days) [] rfl
  rw [find_top_recent_post]
  cases hr : recentLoop posts (initCutoff now days) [] with
  | error e =>
    rw [hr] at hiff
    rw [← hiff]
    constructor
    · intro _
      exact ⟨e, rfl⟩
    · intro _
      exact ⟨e, rfl⟩
  | ok scored =>
    rw [hr] at hiff
    rw [← hiff]
    constructor
    · rintro ⟨e, he⟩
      exact absurd he (by simp)
    · rintro ⟨e, he⟩
      exact absurd he (by simp)

theorem analyze_error_iff (minR : Int) (posts : List Post) (now : Int) (days : Nat) :
    (∃ e, analyze_user_posts minR posts now days = .error e) ↔
    (∃ e, find_top_recent_post posts now days = .error e) := by
  rw [analyze_user_posts]
  cases hr : find_top_recent_post posts now days with
  | error e =>
    constructor
    · intro _
      exact ⟨e, rfl⟩
    · intro _
      exact ⟨e, rfl⟩
  | ok tr =>
    constructor
    · rintro ⟨e, he⟩
      exact absurd he (by simp)
    · rintro ⟨e, he⟩
      exact absurd he (by simp)

/-! ### Claim C1 -/

/-- C1 (amended): find_top_all_time_post and find_most_ratioed_post are total
by construction and return no result on empty input; find_top_recent_post
(and hence analyze_user_posts) raises exactly on mixed lists in which some
post with a parseable zoned timestamp precedes some post with a parseable
naive timestamp, and otherwise never raises. -/
theorem claim_c1 (minR : Int) (posts : List Post) (now : Int) (days : Nat) :
    ((∃ e, find_top_recent_post posts now days = .error e) ↔ MixedNA posts) ∧
    ((∃ e, analyze_user_posts minR posts now days = .error e) ↔ MixedNA posts) ∧
    analyze_user_posts minR [] now days =
      .ok { top_recent := none, top_all_time := none, most_ratioed := none } ∧
    find_top_all_time_post [] = none ∧
    find_most_ratioed_post minR [] = none := by
  refine ⟨find_top_recent_error_iff posts now days, ?_, rfl, rfl, rfl⟩
  rw [analyze_error_iff]
  exact find_top_recent_error_iff posts now days

theorem claim_c1_counterexample :
    analyze_user_posts 5 [samplePostAware, samplePostNaive] 0 30 = .error tzErrMsg := by
  rfl

/-! ### Claim C2 -/

/-- C2 (amended): a post with a zoned timestamp is always compared against
the cutoff re-anchored in its own zone — which reduces to a wall-clock
comparison — and permanently turns the cutoff aware; a naive-timestamped post
is compared against the naive cutoff only while no earlier post carried zone
information, and raises once the cutoff has become aware, so the treatment of
a naive post is not independent of its predecessors. -/
theorem claim_c2 (cutoff : PyDatetime) (acc : List (Post × Int)) (p : Post)
    (ps : List Post) (d : PyDatetime) :
    (∀ z, get_post_date p = some d → d.tz = some z →
      recentLoop (p :: ps) cutoff acc =
        recentLoop ps { cutoff with tz := some z }
          (if cutoff.wall ≤ d.wall then acc ++ [(p, calculate_engagement p)] else acc)) ∧
    (get_post_date p = some d → d.tz = none → cutoff.tz = none →
      recentLoop (p :: ps) cutoff acc =
        recentLoop ps cutoff
          (if cutoff.wall ≤ d.wall then acc ++ [(p, calculate_engagement p)] else acc)) ∧
    (get_post_date p = some d → d.tz = none → (cutoff.tz).isSome →
      recentLoop (p :: ps) cutoff acc = .error tzErrMsg) := by
  refine ⟨fun z hd htz => ?_, fun hd htz hcz => ?_, fun hd htz hcz => ?_⟩
  · simp only [recentLoop, hd, htz, dtGe, decide_eq_true_eq, sub_le_sub_iff_right]
  · simp only [recentLoop, hd, htz, hcz, dtGe, decide_eq_true_eq]
  · cases hcz2 : cutoff.tz with
    | none => rw [hcz2] at hcz; exact absurd hcz (by simp)
    | some z => simp only [recentLoop, hd, htz, hcz2, dtGe]

theorem claim_c2_witness :
    recentLoop [samplePostNaive] { wall := 0, tz := some 0 } [] = .error tzErrMsg ∧
    recentLoop [samplePostNaive] { wall := 0, tz := none } [] =
      recentLoop [] { wall := 0, tz := none }
        (if (0 : Int) ≤ 50 then [] ++ [(samplePostNaive, 0)] else []) :=
  ⟨(claim_c2 { wall := 0, tz := some 0 } [] samplePostNaive [] { wall := 50, tz := none }).2.2
      rfl rfl rfl,
    (claim_c2 { wall := 0, tz := none } [] samplePostNaive [] { wall := 50, tz := none }).2.1
      rfl rfl rfl⟩

theorem claim_c2_counterexample :
    find_top_recent_post [samplePostNaive] 0 30 = .ok (some (samplePostNaive, 0)) ∧
    find_top_recent_post [samplePostAware, samplePostNaive] 0 30 = .error tzErrMsg :=
  ⟨by rfl, by rfl⟩

/-! ### Helper lemmas: the mention-processing error path -/

theorem analyze_mixed_error (minR : Int) (posts : List Post) (now : Int)
    (days : Nat) (h : MixedNA posts) :
    analyze_user_posts minR posts now days = .error tzErrMsg := by
  obtain ⟨e, he⟩ := (find_top_recent_error_iff posts now days).mpr h
  have hmsg : e = tzErrMsg := by
    rw [find_top_recent_post] at he
    cases hr : recentLoop posts (initCutoff now days) [] with
    | error e2 =>
      rw [hr] at he
      injection he with h2
      exact h2 ▸ recentLoop_error_msg posts (initCutoff now days) [] e2 hr
    | ok s =>
      rw [hr] at he
      exact absurd he (by simp)
  subst hmsg
  rw [analyze_user_posts, he]

/-! ### Claim C3 -/

/-- C3 (amended): an exception at any phase of process_mention — fetching the
posts, replying to a user without posts, analyzing, rendering the thread,
sending the first thread post, or sending a later thread post — is caught at
the top, one best-effort error notice is attempted (the send outcome being
ignored, so its own failure is swallowed) and the call returns failure; but
the uri is NOT marked processed, the tracker is returned unchanged in every
one of these cases, so a later call with the same uri re-attempts processing
instead of skipping it as a duplicate. -/
theorem claim_c3 (recent_days : Nat) (minR : Int) (now : Int) (w : World)
    (tracker : List String) (m : Mention) (hU : m.uri ∉ tracker) :
    (∀ e, w.fetch = .error e →
      process_mention recent_days minR now w tracker m =
        (false, tracker, [format_error_response e m.authorHandle])) ∧
    (∀ e, w.fetch = .ok [] → w.reply 0 = .error e →
      process_mention recent_days minR now w tracker m =
        (false, tracker, [format_no_posts_response m.authorHandle,
          format_error_response e m.authorHandle])) ∧
    (∀ posts, w.fetch = .ok posts → posts ≠ [] → MixedNA posts →
      process_mention recent_days minR now w tracker m =
        (false, tracker, [format_error_response tzErrMsg m.authorHandle])) ∧
    (∀ posts analysis e, w.fetch = .ok posts → posts ≠ [] →
      analyze_user_posts minR posts now recent_days = .ok analysis →
      create_thread_responses analysis.top_recent analysis.top_all_time
        analysis.most_ratioed m.authorHandle recent_days = .error e →
      process_mention recent_days minR now w tracker m =
        (false, tracker, [format_error_response e m.authorHandle])) ∧
    (∀ posts analysis t0 rest e, w.fetch = .ok posts → posts ≠ [] →
      analyze_user_posts minR posts now recent_days = .ok analysis →
      create_thread_responses analysis.top_recent analysis.top_all_time
        analysis.most_ratioed m.authorHandle recent_days = .ok (t0 :: rest) →
      w.reply 0 = .error e →
      process_mention recent_days minR now w tracker m =
        (false, tracker, [t0, format_error_response e m.authorHandle])) ∧
    (∀ posts analysis t0 rest u c sentR e, w.fetch = .ok posts → posts ≠ [] →
      analyze_user_posts minR posts now recent_days = .ok analysis →
      create_thread_responses analysis.top_recent analysis.top_all_time
        analysis.most_ratioed m.authorHandle recent_days = .ok (t0 :: rest) →
      w.reply 0 = .ok (some u, c) →
      sendRest w 1 rest = (sentR, some e) →
      process_mention recent_days minR now w tracker m =
        (false, tracker, t0 :: (sentR ++ [format_error_response e m.authorHandle]))) := by
  have hie : ∀ posts : List Post, posts ≠ [] → posts.isEmpty = false := by
    intro posts hne
    cases posts with
    | nil => exact absurd rfl hne
    | cons a as => rfl
  refine ⟨?_, ?_, ?_, ?_, ?_, ?_⟩
  · intro e hf
    rw [process_mention, if_neg hU, hf]
    simp [exceptHandler]
  · intro e hf hrep
    rw [process_mention, if_neg hU, hf]
    dsimp only
    rw [if_pos (show ([] : List Post).isEmpty = true from rfl), hrep]
    simp [exceptHandler]
  · intro posts hf hne hmix
    rw [process_mention, if_neg hU, hf]
    simp only [hie posts hne, Bool.false_eq_true, if_false]
    rw [analyze_mixed_error minR posts now recent_days hmix]
    simp [exceptHandler]
  · intro posts analysis e hf hne hana hcr
    rw [process_mention, if_neg hU, hf]
    simp only [hie posts hne, Bool.false_eq_true, if_false]
    rw [hana]
    dsimp only
    rw [hcr]
    simp [exceptHandler]
  · intro posts analysis t0 rest e hf hne hana hcr hrep
    rw [process_mention, if_neg hU, hf]
    simp only [hie posts hne, Bool.false_eq_true, if_false]
    rw [hana]
    dsimp only
    rw [hcr]
    dsimp only
    rw [hrep]
    simp [exceptHandler]
  · intro posts analysis t0 rest u c sentR e hf hne hana hcr hrep hsr
    rw [process_mention, if_neg hU, hf]
    simp only [hie posts hne, Bool.false_eq_true, if_false]
    rw [hana]
    dsimp only
    rw [hcr]
    dsimp only
    rw [hrep]
    dsimp only
    rw [hsr]
    simp [exceptHandler]

theorem claim_c3_witness :
    process_mention 30 5 0 sampleWorldErr [] sampleMention =
      (false, [], [format_error_response "API error" (some "alice.bsky.social")]) ∧
    process_mention 30 5 0 sampleWorldReplyErr [] sampleMention =
      (false, [], [format_no_posts_response (some "alice.bsky.social"),
        format_error_response "network down" (some "alice.bsky.social")]) :=
  ⟨(claim_c3 30 5 0 sampleWorldErr [] sampleMention (by simp)).1 "API error" rfl,
   (claim_c3 30 5 0 sampleWorldReplyErr [] sampleMention (by simp)).2.1
     "network down" rfl rfl⟩

theorem claim_c3_counterexample :
    ((process_mention 30 5 0 sampleWorldErr [] sampleMention).2.1).contains
      sampleMention.uri = false := by
  rfl

/-! ### Helper lemmas: block structure -/

theorem str_data_append (a b : String) : (a ++ b).data = a.data ++ b.data := rfl

theorem format_thread_post_ok_shape (e t : String) (post : Post)
    (sc : Option String) (handle : Option String) (b : String)
    (hb : format_thread_post e t post sc handle = .ok b) :
    ∃ r, b = (e ++ " " ++ t ++ "\n\n") ++ r := by
  rw [format_thread_post] at hb
  cases hu : uriOf post with
  | none =>
    rw [hu] at hb
    exact absurd hb (by simp)
  | some u =>
    rw [hu] at hb
    dsimp only at hb
    split at hb
    · injection hb with h
      exact ⟨joinSep (stats_of post ::
          (sc.toList ++ [get_post_preview post, uri_to_url u handle])), h.symm⟩
    · injection hb with h
      refine ⟨joinSep (stats_of post :: (sc.toList ++
        [truncate_text (get_post_preview post)
          (max 20 ((MAX_POST_LENGTH : Int) -
            (((joinSep (blockParts e t (stats_of post) sc (uri_to_url u handle)
              (get_post_preview post))).length - (get_post_preview post).length : Nat) : Int))).toNat,
          uri_to_url u handle])), h.symm⟩

theorem chilli_ne_fallback (r : String) :
    "🌶️ Most Ratioed\n\n" ++ r ≠ ratioFallback := by
  intro h
  have h2 := congrArg (fun s : String => s.data.head?) h
  simp only [str_data_append] at h2
  have h3 : (("🌶️ Most Ratioed\n\n" : String).data ++ r.data).head? = some '🌶' := rfl
  have h4 : ((ratioFallback : String).data).head? = some 'N' := rfl
  rw [h3, h4] at h2
  exact absurd h2 (by decide)

/-! ### Claim C7 -/

/-- C7: provided the thread renders, its third block is the 🌶️ block with
"Ratio:" annotation exactly when a most-ratioed result is present with ratio
at least 3.0, that block differs from the fallback sentinel, and an absent
result or one with ratio below 3.0 both yield the identical fixed fallback
sentinel. -/
theorem claim_c7 (tr ta : Option (Post × Int)) (mr : Option (Post × ℚ))
    (handle : Option String) (days : Nat) (ts : List String)
    (h : create_thread_responses tr ta mr handle days = .ok ts) :
    (∀ p r, mr = some (p, r) → (3 : ℚ) ≤ r →
      ∃ b, format_thread_post "🌶️" "Most Ratioed" p
          (some ("Ratio: " ++ fmt1 r)) handle = .ok b ∧
        ts[2]? = some b ∧ b ≠ ratioFallback) ∧
    ((mr = none ∨ ∃ p r, mr = some (p, r) ∧ r < 3) →
      ts[2]? = some ratioFallback) := by
  rw [create_thread_responses.eq_def] at h
  cases hb1 : (match tr with
      | some (p, engagement) =>
        format_thread_post "🔥" (recentTitle days engagement) p none handle
      | none => .ok (noRecentSentinel days)) with
  | error e => rw [hb1] at h; exact absurd h (by simp)
  | ok b1 =>
    rw [hb1] at h
    cases hb2 : (match ta with
        | some (p, engagement) =>
          format_thread_post "👑" (allTimeTitle engagement) p none handle
        | none => .ok noAllTimeSentinel) with
    | error e => rw [hb2] at h; exact absurd h (by simp)
    | ok b2 =>
      rw [hb2] at h
      cases hb3 : (match mr with
          | some (p, ratio) =>
            if (3 : ℚ) ≤ ratio then
              format_thread_post "🌶️" "Most Ratioed" p
                (some ("Ratio: " ++ fmt1 ratio)) handle
            else .ok ratioFallback
          | none => .ok ratioFallback) with
      | error e => rw [hb3] at h; exact absurd h (by simp)
      | ok b3 =>
        rw [hb3] at h
        have hts : ts = [b1, b2, b3] := by
          injection h with h2
          exact h2.symm
        subst hts
        constructor
        · intro p r hmr h3r
          rw [hmr] at hb3
          dsimp only at hb3
          rw [if_pos h3r] at hb3
          refine ⟨b3, hb3, rfl, ?_⟩
          obtain ⟨rest, hrest⟩ :=
            format_thread_post_ok_shape "🌶️" "Most Ratioed" p
              (some ("Ratio: " ++ fmt1 r)) handle b3 hb3
          rw [hrest,
            show ("🌶️" ++ " " ++ "Most Ratioed" ++ "\n\n" : String) =
              "🌶️ Most Ratioed\n\n" from rfl]
          exact chilli_ne_fallback rest
        · intro hcase
          rcases hcase with hmr | ⟨p, r, hmr, hr3⟩
          · rw [hmr] at hb3
            dsimp only at hb3
            injection hb3 with h2
            rw [← h2]
            rfl
          · rw [hmr] at hb3
            dsimp only at hb3
            rw [if_neg (not_le.mpr hr3)] at hb3
            injection hb3 with h2
            rw [← h2]
            rfl

theorem claim_c7_witness :
    ∃ ts b, create_thread_responses none none (some (samplePostUri, (5 : ℚ)))
        (some "alice") 30 = .ok ts ∧ ts[2]? = some b ∧ b ≠ ratioFallback := by
  have h105 : (10 : ℚ) * 5 = 50 := by norm_num
  have hrhe : roundHalfEven 50 = 50 := by
    simp only [roundHalfEven]
    norm_num
  have hfmt5 : fmt1 5 = "5.0" := by
    simp only [fmt1, h105, hrhe]
    rfl
  have hc : create_thread_responses none none (some (samplePostUri, (5 : ℚ)))
      (some "alice") 30 = .ok [noRecentSentinel 30, noAllTimeSentinel,
        "🌶️ Most Ratioed\n\n❤️ 1 | 🔄 0 | 💬 0\n\nRatio: 5.0\n\n[Post content unavailable]\n\nhttps://bsky.app/profile/alice/post/r"] := by
    rw [create_thread_responses.eq_def]
    dsimp only
    rw [if_pos (by norm_num : (3 : ℚ) ≤ 5), format_thread_post, hfmt5]
    rfl
  obtain ⟨b, hfmt, hget, hne⟩ :=
    (claim_c7 none none (some (samplePostUri, (5 : ℚ))) (some "alice") 30 _ hc).1
      samplePostUri 5 rfl (by norm_num)
  exact ⟨_, b, hc, hget, hne⟩

/-! ### Helper lemmas: block lengths and the shrink pass -/

theorem blockParts_join_length (e t stats : String) (sc : Option String)
    (url pv : String) :
    (joinSep (blockParts e t stats sc url pv)).length =
      (e ++ " " ++ t).length + 2 + stats.length + 2 + scoreLen sc + 2 +
        url.length + pv.length := by
  have h2 : ("\n\n" : String).length = 2 := rfl
  cases sc with
  | none =>
    show (joinSep [e ++ " " ++ t, stats, pv, url]).length = _
    simp only [joinSep, String.length_append, h2, scoreLen]
    omega
  | some s =>
    show (joinSep [e ++ " " ++ t, stats, s, pv, url]).length = _
    simp only [joinSep, String.length_append, h2, scoreLen]
    omega

theorem format_thread_post_le (e t : String) (post : Post) (sc : Option String)
    (handle : Option String) (u : String) (hu : uriOf post = some u)
    (hov : block_overhead e t post sc handle ≤ 280) :
    ∃ b, format_thread_post e t post sc handle = .ok b ∧ b.length ≤ 300 := by
  have hovF : (e ++ " " ++ t).length + 2 + (stats_of post).length + 2 +
      scoreLen sc + 2 + (uri_to_url u handle).length ≤ 280 := by
    have : block_overhead e t post sc handle =
        (e ++ " " ++ t).length + 2 + (stats_of post).length + 2 + scoreLen sc + 2 +
          (uri_to_url u handle).length := by
      simp only [block_overhead, hu, Option.getD_some]
    rw [this] at hov
    exact hov
  have hlen := blockParts_join_length e t (stats_of post) sc (uri_to_url u handle)
    (get_post_preview post)
  by_cases hle : (joinSep (blockParts e t (stats_of post) sc (uri_to_url u handle)
      (get_post_preview post))).length ≤ 300
  · refine ⟨_, ?_, hle⟩
    simp only [format_thread_post, hu, MAX_POST_LENGTH]
    rw [if_pos hle]
  · have hgt : 300 < (e ++ " " ++ t).length + 2 + (stats_of post).length + 2 +
        scoreLen sc + 2 + (uri_to_url u handle).length +
        (get_post_preview post).length := by
      rw [← hlen]
      exact not_le.mp hle
    have hsub : (joinSep (blockParts e t (stats_of post) sc (uri_to_url u handle)
        (get_post_preview post))).length - (get_post_preview post).length =
        (e ++ " " ++ t).length + 2 + (stats_of post).length + 2 + scoreLen sc + 2 +
          (uri_to_url u handle).length := by
      omega
    have hbud : (max (20 : Int) ((300 : Int) -
        (((joinSep (blockParts e t (stats_of post) sc (uri_to_url u handle)
          (get_post_preview post))).length - (get_post_preview post).length : Nat) :
          Int))).toNat =
        300 - ((e ++ " " ++ t).length + 2 + (stats_of post).length + 2 +
          scoreLen sc + 2 + (uri_to_url u handle).length) := by
      rw [hsub]
      omega
    have h3b : 3 ≤ 300 - ((e ++ " " ++ t).length + 2 + (stats_of post).length + 2 +
        scoreLen sc + 2 + (uri_to_url u handle).length) := by
      omega
    have hPgt : 300 - ((e ++ " " ++ t).length + 2 + (stats_of post).length + 2 +
        scoreLen sc + 2 + (uri_to_url u handle).length) <
        (get_post_preview post).length := by
      omega
    obtain ⟨-, hlen2⟩ := truncate_text_of_lt (get_post_preview post) _ h3b hPgt
    refine ⟨joinSep (blockParts e t (stats_of post) sc (uri_to_url u handle)
      (truncate_text (get_post_preview post)
        (300 - ((e ++ " " ++ t).length + 2 + (stats_of post).length + 2 +
          scoreLen sc + 2 + (uri_to_url u handle).length)))), ?_, ?_⟩
    · simp only [format_thread_post, hu, MAX_POST_LENGTH, Nat.cast_ofNat]
      rw [if_neg hle, hbud]
    · rw [blockParts_join_length, hlen2]
      omega

/-! ### Claim C5 -/

/-- C5 (amended): create_thread_responses returns exactly 3 strings whenever
every rendered post carries a uri, and each string stays within 300
characters provided the non-preview segments of each rendered block total at
most 280 (the preview shrink floor is 20) and the recent-days sentinel itself
fits; the counterexample shows an oversized handle pushing a block past 300. -/
theorem claim_c5 (tr ta : Option (Post × Int)) (mr : Option (Post × ℚ))
    (handle : Option String) (days : Nat)
    (h1 : ∀ p s, tr = some (p, s) → ∃ u, uriOf p = some u ∧
      block_overhead "🔥" (recentTitle days s) p none handle ≤ 280)
    (h2 : ∀ p s, ta = some (p, s) → ∃ u, uriOf p = some u ∧
      block_overhead "👑" (allTimeTitle s) p none handle ≤ 280)
    (h3 : ∀ p r, mr = some (p, r) → (3 : ℚ) ≤ r → ∃ u, uriOf p = some u ∧
      block_overhead "🌶️" "Most Ratioed" p (some ("Ratio: " ++ fmt1 r)) handle ≤ 280)
    (h4 : (noRecentSentinel days).length ≤ 300) :
    ∃ ts, create_thread_responses tr ta mr handle days = .ok ts ∧
      ts.length = 3 ∧ ∀ s ∈ ts, s.length ≤ 300 := by
  have hB1 : ∃ b1, (match tr with
      | some (p, engagement) =>
        format_thread_post "🔥" (recentTitle days engagement) p none handle
      | none => .ok (noRecentSentinel days)) = .ok b1 ∧ b1.length ≤ 300 := by
    cases tr with
    | none => exact ⟨noRecentSentinel days, rfl, h4⟩
    | some pe =>
      obtain ⟨p, s⟩ := pe
      obtain ⟨u, hu, hov⟩ := h1 p s rfl
      exact format_thread_post_le _ _ _ _ _ u hu hov
  have hB2 : ∃ b2, (match ta with
      | some (p, engagement) =>
        format_thread_post "👑" (allTimeTitle engagement) p none handle
      | none => .ok noAllTimeSentinel) = .ok b2 ∧ b2.length ≤ 300 := by
    cases ta with
    | none => exact ⟨noAllTimeSentinel, rfl, by decide⟩
    | some pe =>
      obtain ⟨p, s⟩ := pe
      obtain ⟨u, hu, hov⟩ := h2 p s rfl
      exact format_thread_post_le _ _ _ _ _ u hu hov
  have hB3 : ∃ b3, (match mr with
      | some (p, ratio) =>
        if (3 : ℚ) ≤ ratio then
          format_thread_post "🌶️" "Most Ratioed" p
            (some ("Ratio: " ++ fmt1 ratio)) handle
        else .ok ratioFallback
      | none => .ok ratioFallback) = .ok b3 ∧ b3.length ≤ 300 := by
    cases mr with
    | none => exact ⟨ratioFallback, rfl, by decide⟩
    | some pr =>
      obtain ⟨p, r⟩ := pr
      dsimp only
      by_cases h3r : (3 : ℚ) ≤ r
      · rw [if_pos h3r]
        obtain ⟨u, hu, hov⟩ := h3 p r rfl h3r
        exact format_thread_post_le _ _ _ _ _ u hu hov
      · rw [if_neg h3r]
        exact ⟨ratioFallback, rfl, by decide⟩
  obtain ⟨b1, hb1, hl1⟩ := hB1
  obtain ⟨b2, hb2, hl2⟩ := hB2
  obtain ⟨b3, hb3, hl3⟩ := hB3
  refine ⟨[b1, b2, b3], ?_, rfl, ?_⟩
  · rw [create_thread_responses.eq_def, hb1]
    dsimp only
    rw [hb2]
    dsimp only
    rw [hb3]
  · intro s hs
    simp only [List.mem_cons, List.not_mem_nil, or_false] at hs
    rcases hs with rfl | rfl | rfl
    · exact hl1
    · exact hl2
    · exact hl3

theorem claim_c5_witness :
    ∃ ts, create_thread_responses none none none none 30 = .ok ts ∧
      ts.length = 3 ∧ ∀ s ∈ ts, s.length ≤ 300 :=
  claim_c5 none none none none 30
    (fun p s h => absurd h (by simp))
    (fun p s h => absurd h (by simp))
    (fun p r h _ => absurd h (by simp))
    (by decide)

set_option maxRecDepth 100000 in
theorem claim_c5_counterexample :
    anyOver300 (create_thread_responses none (some (samplePostUri, 1)) none
      (some sampleBigHandle) 30) = true := by
  rfl

end HypeBot
